import Mathlib

set_option linter.unusedVariables false

/-!
Shallow embedding of `rosflight/include/rosflight/mavrosflight/logger_interface.h`.

The header defines a CRTP capability interface `LoggerInterface<Derived>` with
five severity levels (debug, info, warn, error, fatal), each with a plain and a
throttled entry point, and one concrete implementation `DefaultLogger` whose
private `_log` builds the string `"[mavrosflight][" << name << "]: " << format
<< std::endl` and passes it, together with the caller's variadic arguments, to
`fprintf` on the chosen `FILE*` (`stdout` for debug/info, `stderr` for
warn/error/fatal).

Modelling choices:
- printf formatting is embedded for the argument universe the header's callers
  use: `%d` consuming an int, `%s` consuming a string, `%%` emitting a literal
  percent, every other character copied verbatim.  A conversion that C leaves
  undefined (unknown specifier, type mismatch, missing argument, dangling `%`)
  is `none`: the model makes no claim there.  Surplus arguments left over when
  the template is exhausted are ignored, as C99 7.19.6.1p2 prescribes.
- the pair of process streams is a `World` with one text buffer per stream and
  a `closed` flag; `fprintf` on a closed stream fails and the text is dropped,
  which models a write failure that the code never inspects.
- `float period` of the throttled calls is carried as `Float` and, as in the
  header, never read.
-/

namespace Mavrosflight

/-- A variadic argument passed to a logging call: the header's callers pass
C ints (`%d`) and C strings (`%s`). -/
inductive FmtArg where
  | int (i : Int)
  | str (s : String)
deriving DecidableEq, Repr

/-- The text a conversion specification renders its matching argument as:
`%d` prints the decimal integer, `%s` inserts the string unchanged. -/
def FmtArg.render : FmtArg → List Char
  | .int i => (toString i).toList
  | .str s => s.toList

/-- Core of `fprintf`/`vsnprintf` on the modelled fragment: walk the format
characters, copying literals, expanding `%%`, and consuming one argument for
each `%d`/`%s`.  Returns the rendered text together with the arguments left
over once the template is exhausted (C ignores those).  `none` marks the
inputs on which C printf is undefined. -/
def formatAux : List Char → List FmtArg → Option (List Char × List FmtArg)
  | [], args => some ([], args)
  | c :: rest, args =>
    if c = '%' then
      match rest with
      | [] => none
      | d :: rest2 =>
        if d = '%' then
          (formatAux rest2 args).map (fun p => ('%' :: p.1, p.2))
        else if d = 'd' then
          match args with
          | FmtArg.int i :: args2 =>
            (formatAux rest2 args2).map (fun p => ((toString i).toList ++ p.1, p.2))
          | _ => none
        else if d = 's' then
          match args with
          | FmtArg.str s :: args2 =>
            (formatAux rest2 args2).map (fun p => (s.toList ++ p.1, p.2))
          | _ => none
        else none
    else
      (formatAux rest args).map (fun p => (c :: p.1, p.2))

/-- The fully rendered output of formatting `format` against `args`
(`sprintf`-style), when defined. -/
def sprintf (format : String) (args : List FmtArg) : Option (List Char) :=
  (formatAux format.toList args).map Prod.fst

/-- The two process-wide C streams `DefaultLogger` writes to. -/
inductive FileStream where
  | stdout
  | stderr
deriving DecidableEq, Repr

/-- Observable state of the two streams: the text written so far and whether
the stream is still accepting writes. -/
structure World where
  outBuf : List Char
  errBuf : List Char
  outClosed : Bool
  errClosed : Bool
deriving DecidableEq, Repr

/-- A successful `fprintf` appends the rendered text to the stream; on a
closed stream the write fails, which the code ignores, so the text is simply
dropped. -/
def writeStream (w : World) : FileStream → List Char → World
  | .stdout, s => if w.outClosed then w else { w with outBuf := w.outBuf ++ s }
  | .stderr, s => if w.errClosed then w else { w with errBuf := w.errBuf ++ s }

/-- `class DefaultLogger` has no data members. -/
structure DefaultLogger where

/-- `DefaultLogger::_log`: build
`"[mavrosflight][" << name << "]: " << format << std::endl` into a
stringstream and `fprintf` the result with the caller's arguments to `fs`.
The returned `Unit` is the `void` handed back to the caller; `none` marks the
formatting inputs on which C printf is undefined. -/
def DefaultLogger._log (self : DefaultLogger) (w : World) (fs : FileStream)
    (name : String) (format : String) (args : List FmtArg) : Option (World × Unit) :=
  let ss : List Char :=
    "[mavrosflight][".toList ++ name.toList ++ "]: ".toList ++ format.toList ++ ['\n']
  (formatAux ss args).map (fun p => (writeStream w fs p.1, ()))

def DefaultLogger.debug (self : DefaultLogger) (w : World)
    (format : String) (args : List FmtArg) : Option (World × Unit) :=
  self._log w FileStream.stdout "DEBUG" format args

def DefaultLogger.debug_throttle (self : DefaultLogger) (period : Float) (w : World)
    (format : String) (args : List FmtArg) : Option (World × Unit) :=
  self.debug w format args

def DefaultLogger.info (self : DefaultLogger) (w : World)
    (format : String) (args : List FmtArg) : Option (World × Unit) :=
  self._log w FileStream.stdout "INFO" format args

def DefaultLogger.info_throttle (self : DefaultLogger) (period : Float) (w : World)
    (format : String) (args : List FmtArg) : Option (World × Unit) :=
  self.info w format args

def DefaultLogger.warn (self : DefaultLogger) (w : World)
    (format : String) (args : List FmtArg) : Option (World × Unit) :=
  self._log w FileStream.stderr "WARN" format args

def DefaultLogger.warn_throttle (self : DefaultLogger) (period : Float) (w : World)
    (format : String) (args : List FmtArg) : Option (World × Unit) :=
  self.warn w format args

def DefaultLogger.error (self : DefaultLogger) (w : World)
    (format : String) (args : List FmtArg) : Option (World × Unit) :=
  self._log w FileStream.stderr "ERROR" format args

def DefaultLogger.error_throttle (self : DefaultLogger) (period : Float) (w : World)
    (format : String) (args : List FmtArg) : Option (World × Unit) :=
  self.error w format args

def DefaultLogger.fatal (self : DefaultLogger) (w : World)
    (format : String) (args : List FmtArg) : Option (World × Unit) :=
  self._log w FileStream.stderr "FATAL" format args

def DefaultLogger.fatal_throttle (self : DefaultLogger) (period : Float) (w : World)
    (format : String) (args : List FmtArg) : Option (World × Unit) :=
  self.fatal w format args

/-- `LoggerInterface<Derived>::debug` instantiated at `Derived = DefaultLogger`:
`static_cast<Derived&>(*this)` and forward to the derived method. -/
def LoggerInterface.debug (derived : DefaultLogger) (w : World)
    (format : String) (args : List FmtArg) : Option (World × Unit) :=
  derived.debug w format args

def LoggerInterface.debug_throttle (derived : DefaultLogger) (period : Float) (w : World)
    (format : String) (args : List FmtArg) : Option (World × Unit) :=
  derived.debug_throttle period w format args

def LoggerInterface.info (derived : DefaultLogger) (w : World)
    (format : String) (args : List FmtArg) : Option (World × Unit) :=
  derived.info w format args

def LoggerInterface.info_throttle (derived : DefaultLogger) (period : Float) (w : World)
    (format : String) (args : List FmtArg) : Option (World × Unit) :=
  derived.info_throttle period w format args

def LoggerInterface.warn (derived : DefaultLogger) (w : World)
    (format : String) (args : List FmtArg) : Option (World × Unit) :=
  derived.warn w format args

def LoggerInterface.warn_throttle (derived : DefaultLogger) (period : Float) (w : World)
    (format : String) (args : List FmtArg) : Option (World × Unit) :=
  derived.warn_throttle period w format args

def LoggerInterface.error (derived : DefaultLogger) (w : World)
    (format : String) (args : List FmtArg) : Option (World × Unit) :=
  derived.error w format args

def LoggerInterface.error_throttle (derived : DefaultLogger) (period : Float) (w : World)
    (format : String) (args : List FmtArg) : Option (World × Unit) :=
  derived.error_throttle period w format args

def LoggerInterface.fatal (derived : DefaultLogger) (w : World)
    (format : String) (args : List FmtArg) : Option (World × Unit) :=
  derived.fatal w format args

def LoggerInterface.fatal_throttle (derived : DefaultLogger) (period : Float) (w : World)
    (format : String) (args : List FmtArg) : Option (World × Unit) :=
  derived.fatal_throttle period w format args

/-- The five severity levels, used to quantify one statement over the five
separately written methods of the header. -/
inductive Level where
  | debug
  | info
  | warn
  | error
  | fatal
deriving DecidableEq, Repr

/-- The uppercase tag name each method passes to `_log`. -/
def Level.name : Level → String
  | .debug => "DEBUG"
  | .info => "INFO"
  | .warn => "WARN"
  | .error => "ERROR"
  | .fatal => "FATAL"

/-- The destination stream each method passes to `_log`. -/
def Level.stream : Level → FileStream
  | .debug => FileStream.stdout
  | .info => FileStream.stdout
  | .warn => FileStream.stderr
  | .error => FileStream.stderr
  | .fatal => FileStream.stderr

/-- Dispatch to the non-throttled `DefaultLogger` method of a level. -/
def DefaultLogger.call (self : DefaultLogger) (lvl : Level) (w : World)
    (format : String) (args : List FmtArg) : Option (World × Unit) :=
  match lvl with
  | .debug => self.debug w format args
  | .info => self.info w format args
  | .warn => self.warn w format args
  | .error => self.error w format args
  | .fatal => self.fatal w format args

/-- Dispatch to the throttled `DefaultLogger` method of a level. -/
def DefaultLogger.callThrottle (self : DefaultLogger) (lvl : Level) (period : Float)
    (w : World) (format : String) (args : List FmtArg) : Option (World × Unit) :=
  match lvl with
  | .debug => self.debug_throttle period w format args
  | .info => self.info_throttle period w format args
  | .warn => self.warn_throttle period w format args
  | .error => self.error_throttle period w format args
  | .fatal => self.fatal_throttle period w format args

/-- Dispatch to the non-throttled `LoggerInterface` method of a level. -/
def LoggerInterface.call (derived : DefaultLogger) (lvl : Level) (w : World)
    (format : String) (args : List FmtArg) : Option (World × Unit) :=
  match lvl with
  | .debug => LoggerInterface.debug derived w format args
  | .info => LoggerInterface.info derived w format args
  | .warn => LoggerInterface.warn derived w format args
  | .error => LoggerInterface.error derived w format args
  | .fatal => LoggerInterface.fatal derived w format args

/-- Dispatch to the throttled `LoggerInterface` method of a level. -/
def LoggerInterface.callThrottle (derived : DefaultLogger) (lvl : Level) (period : Float)
    (w : World) (format : String) (args : List FmtArg) : Option (World × Unit) :=
  match lvl with
  | .debug => LoggerInterface.debug_throttle derived period w format args
  | .info => LoggerInterface.info_throttle derived period w format args
  | .warn => LoggerInterface.warn_throttle derived period w format args
  | .error => LoggerInterface.error_throttle derived period w format args
  | .fatal => LoggerInterface.fatal_throttle derived period w format args

/-- The tag `_log` prefixes to the caller's template for a given level name. -/
def tagChars (name : String) : List Char :=
  "[mavrosflight][".toList ++ name.toList ++ "]: ".toList

/-- The full text one call of a given level emits (tag, formatted template,
line terminator), when formatting is defined. -/
def emitted (lvl : Level) (format : String) (args : List FmtArg) : Option (List Char) :=
  (formatAux (tagChars lvl.name ++ format.toList ++ ['\n']) args).map Prod.fst

/-! Sanity checks of the formatting model on concrete inputs. -/

theorem sprintf_check_int : sprintf "x=%d" [FmtArg.int 5] = some "x=5".toList := by decide

theorem sprintf_check_two :
    sprintf "%s=%d" [FmtArg.str "alt", FmtArg.int 120] = some "alt=120".toList := by decide

theorem sprintf_check_escape : sprintf "100%%" [] = some "100%".toList := by decide

theorem sprintf_check_missing : sprintf "x=%d" [] = none := by decide

theorem sprintf_check_surplus : sprintf "plain" [FmtArg.int 7] = some "plain".toList := by decide

/-! Computation lemmas for `formatAux`, one per branch shape. -/

theorem formatAux_cons_ne (c : Char) (t : List Char) (args : List FmtArg) (hc : c ≠ '%') :
    formatAux (c :: t) args = (formatAux t args).map (fun p => (c :: p.1, p.2)) := by
  rw [formatAux.eq_def]
  simp [hc]

theorem formatAux_pct_nil (args : List FmtArg) : formatAux ['%'] args = none := rfl

theorem formatAux_pct_pct (rest2 : List Char) (args : List FmtArg) :
    formatAux ('%' :: '%' :: rest2) args
      = (formatAux rest2 args).map (fun p => ('%' :: p.1, p.2)) := rfl

theorem formatAux_pct_d_int (rest2 : List Char) (i : Int) (args2 : List FmtArg) :
    formatAux ('%' :: 'd' :: rest2) (FmtArg.int i :: args2)
      = (formatAux rest2 args2).map (fun p => ((toString i).toList ++ p.1, p.2)) := rfl

theorem formatAux_pct_s_str (rest2 : List Char) (s : String) (args2 : List FmtArg) :
    formatAux ('%' :: 's' :: rest2) (FmtArg.str s :: args2)
      = (formatAux rest2 args2).map (fun p => (s.toList ++ p.1, p.2)) := rfl

theorem formatAux_pct_d_not_int (rest2 : List Char) (args : List FmtArg)
    (hno : ∀ (i : Int) (args2 : List FmtArg), args = FmtArg.int i :: args2 → False) :
    formatAux ('%' :: 'd' :: rest2) args = none := by
  match args with
  | [] => rfl
  | FmtArg.int i :: args2 => exact absurd rfl (hno i args2)
  | FmtArg.str s :: args2 => rfl

theorem formatAux_pct_s_not_str (rest2 : List Char) (args : List FmtArg)
    (hno : ∀ (s : String) (args2 : List FmtArg), args = FmtArg.str s :: args2 → False) :
    formatAux ('%' :: 's' :: rest2) args = none := by
  match args with
  | [] => rfl
  | FmtArg.str s :: args2 => exact absurd rfl (hno s args2)
  | FmtArg.int i :: args2 => rfl

theorem formatAux_pct_other (d : Char) (rest2 : List Char) (args : List FmtArg)
    (h1 : d ≠ '%') (h2 : d ≠ 'd') (h3 : d ≠ 's') :
    formatAux ('%' :: d :: rest2) args = none := by
  rw [formatAux.eq_def]
  simp [h1, h2, h3]

/-- A format fragment with no `%` renders as itself and consumes nothing. -/
theorem formatAux_pfree (l : List Char) (args : List FmtArg) (h : '%' ∉ l) :
    formatAux l args = some (l, args) := by
  induction l with
  | nil => rfl
  | cons c t ih =>
    have hc : c ≠ '%' := fun e => h (e ▸ List.mem_cons_self c t)
    have ht : '%' ∉ t := fun hm => h (List.mem_cons_of_mem _ hm)
    rw [formatAux_cons_ne c t args hc, ih ht]
    rfl

/-- A `%`-free prefix passes through `formatAux` verbatim. -/
theorem formatAux_append_pfree (l1 l2 : List Char) (args : List FmtArg) (h : '%' ∉ l1) :
    formatAux (l1 ++ l2) args = (formatAux l2 args).map (fun p => (l1 ++ p.1, p.2)) := by
  induction l1 with
  | nil => simp
  | cons c t ih =>
    have hc : c ≠ '%' := fun e => h (e ▸ List.mem_cons_self c t)
    have ht : '%' ∉ t := fun hm => h (List.mem_cons_of_mem _ hm)
    rw [List.cons_append, formatAux_cons_ne c (t ++ l2) args hc, ih ht]
    cases formatAux l2 args <;> simp

/-- Formatting a concatenation: if the first part formats completely, the
whole formats as the first part's text followed by the second part formatted
against the leftover arguments. -/
theorem formatAux_append (l1 : List Char) (args : List FmtArg) :
    ∀ (l2 : List Char) (m1 : List Char) (r1 : List FmtArg),
      formatAux l1 args = some (m1, r1) →
      formatAux (l1 ++ l2) args = (formatAux l2 r1).map (fun p => (m1 ++ p.1, p.2)) := by
  induction l1, args using formatAux.induct with
  | case1 args =>
    intro l2 m1 r1 h
    rw [formatAux.eq_1] at h
    obtain ⟨rfl, rfl⟩ : ([] : List Char) = m1 ∧ args = r1 := by
      simpa using h
    simp
  | case2 args =>
    intro l2 m1 r1 h
    rw [formatAux_pct_nil] at h
    exact absurd h (by simp)
  | case3 args rest2 ih =>
    intro l2 m1 r1 h
    rw [formatAux_pct_pct] at h
    cases hx : formatAux rest2 args with
    | none => rw [hx] at h; exact absurd h (by simp)
    | some p =>
      rw [hx] at h
      obtain ⟨rfl, rfl⟩ : '%' :: p.1 = m1 ∧ p.2 = r1 := by
        simpa [Prod.ext_iff] using h
      rw [List.cons_append, List.cons_append, formatAux_pct_pct, ih l2 p.1 p.2 hx]
      cases formatAux l2 p.2 <;> simp
  | case4 rest2 i args2 hd ih =>
    intro l2 m1 r1 h
    rw [formatAux_pct_d_int] at h
    cases hx : formatAux rest2 args2 with
    | none => rw [hx] at h; exact absurd h (by simp)
    | some p =>
      rw [hx] at h
      obtain ⟨rfl, rfl⟩ : (toString i).toList ++ p.1 = m1 ∧ p.2 = r1 := by
        simpa [Prod.ext_iff] using h
      rw [List.cons_append, List.cons_append, formatAux_pct_d_int, ih l2 p.1 p.2 hx]
      cases formatAux l2 p.2 <;> simp
  | case5 args rest2 hno hd =>
    intro l2 m1 r1 h
    rw [formatAux_pct_d_not_int rest2 args hno] at h
    exact absurd h (by simp)
  | case6 rest2 s args2 hs hd ih =>
    intro l2 m1 r1 h
    rw [formatAux_pct_s_str] at h
    cases hx : formatAux rest2 args2 with
    | none => rw [hx] at h; exact absurd h (by simp)
    | some p =>
      rw [hx] at h
      obtain ⟨rfl, rfl⟩ : s.toList ++ p.1 = m1 ∧ p.2 = r1 := by
        simpa [Prod.ext_iff] using h
      rw [List.cons_append, List.cons_append, formatAux_pct_s_str, ih l2 p.1 p.2 hx]
      cases formatAux l2 p.2 <;> simp
  | case7 args rest2 hno hs hd =>
    intro l2 m1 r1 h
    rw [formatAux_pct_s_not_str rest2 args hno] at h
    exact absurd h (by simp)
  | case8 args d rest2 h1 h2 h3 =>
    intro l2 m1 r1 h
    rw [formatAux_pct_other d rest2 args h1 h2 h3] at h
    exact absurd h (by simp)
  | case9 c rest args hc ih =>
    intro l2 m1 r1 h
    rw [formatAux_cons_ne c rest args hc] at h
    cases hx : formatAux rest args with
    | none => rw [hx] at h; exact absurd h (by simp)
    | some p =>
      rw [hx] at h
      obtain ⟨rfl, rfl⟩ : c :: p.1 = m1 ∧ p.2 = r1 := by
        simpa [Prod.ext_iff] using h
      rw [List.cons_append, formatAux_cons_ne c (rest ++ l2) args hc, ih l2 p.1 p.2 hx]
      cases formatAux l2 p.2 <;> simp

/-- Inverse decomposition for a trailing line terminator: if a template
extended with `'\n'` formats successfully, the template alone does too and the
rendered text merely gains the final newline. -/
theorem formatAux_snoc_newline (l : List Char) (args : List FmtArg) :
    ∀ m r, formatAux (l ++ ['\n']) args = some (m, r) →
      ∃ m0, formatAux l args = some (m0, r) ∧ m = m0 ++ ['\n'] := by
  induction l, args using formatAux.induct with
  | case1 args =>
    intro m r h
    rw [List.nil_append, formatAux_cons_ne '\n' [] args (by decide), formatAux.eq_1] at h
    obtain ⟨rfl, rfl⟩ : ['\n'] = m ∧ args = r := by simpa using h
    exact ⟨[], rfl, rfl⟩
  | case2 args =>
    intro m r h
    rw [List.cons_append, List.nil_append,
      formatAux_pct_other '\n' [] args (by decide) (by decide) (by decide)] at h
    exact absurd h (by simp)
  | case3 args rest2 ih =>
    intro m r h
    rw [List.cons_append, List.cons_append, formatAux_pct_pct] at h
    cases hx : formatAux (rest2 ++ ['\n']) args with
    | none => rw [hx] at h; exact absurd h (by simp)
    | some p =>
      rw [hx] at h
      obtain ⟨rfl, rfl⟩ : '%' :: p.1 = m ∧ p.2 = r := by simpa [Prod.ext_iff] using h
      obtain ⟨m0, h1, h2⟩ := ih p.1 p.2 hx
      refine ⟨'%' :: m0, ?_, by simp [h2]⟩
      rw [formatAux_pct_pct, h1]
      rfl
  | case4 rest2 i args2 hd ih =>
    intro m r h
    rw [List.cons_append, List.cons_append, formatAux_pct_d_int] at h
    cases hx : formatAux (rest2 ++ ['\n']) args2 with
    | none => rw [hx] at h; exact absurd h (by simp)
    | some p =>
      rw [hx] at h
      obtain ⟨rfl, rfl⟩ : (toString i).toList ++ p.1 = m ∧ p.2 = r := by
        simpa [Prod.ext_iff] using h
      obtain ⟨m0, h1, h2⟩ := ih p.1 p.2 hx
      refine ⟨(toString i).toList ++ m0, ?_, by simp [h2]⟩
      rw [formatAux_pct_d_int, h1]
      rfl
  | case5 args rest2 hno hd =>
    intro m r h
    rw [List.cons_append, List.cons_append, formatAux_pct_d_not_int _ args hno] at h
    exact absurd h (by simp)
  | case6 rest2 s args2 hs hd ih =>
    intro m r h
    rw [List.cons_append, List.cons_append, formatAux_pct_s_str] at h
    cases hx : formatAux (rest2 ++ ['\n']) args2 with
    | none => rw [hx] at h; exact absurd h (by simp)
    | some p =>
      rw [hx] at h
      obtain ⟨rfl, rfl⟩ : s.toList ++ p.1 = m ∧ p.2 = r := by simpa [Prod.ext_iff] using h
      obtain ⟨m0, h1, h2⟩ := ih p.1 p.2 hx
      refine ⟨s.toList ++ m0, ?_, by simp [h2]⟩
      rw [formatAux_pct_s_str, h1]
      rfl
  | case7 args rest2 hno hs hd =>
    intro m r h
    rw [List.cons_append, List.cons_append, formatAux_pct_s_not_str _ args hno] at h
    exact absurd h (by simp)
  | case8 args d rest2 h1 h2 h3 =>
    intro m r h
    rw [List.cons_append, List.cons_append, formatAux_pct_other d _ args h1 h2 h3] at h
    exact absurd h (by simp)
  | case9 c rest args hc ih =>
    intro m r h
    rw [List.cons_append, formatAux_cons_ne c _ args hc] at h
    cases hx : formatAux (rest ++ ['\n']) args with
    | none => rw [hx] at h; exact absurd h (by simp)
    | some p =>
      rw [hx] at h
      obtain ⟨rfl, rfl⟩ : c :: p.1 = m ∧ p.2 = r := by simpa [Prod.ext_iff] using h
      obtain ⟨m0, h1, h2⟩ := ih p.1 p.2 hx
      refine ⟨c :: m0, ?_, by simp [h2]⟩
      rw [formatAux_cons_ne c rest args hc, h1]
      rfl

/-- Rendering preserves freedom from line breaks: a template without `'\n'`
formatted against arguments whose renderings contain no `'\n'` yields text
without `'\n'`. -/
theorem formatAux_no_newline (l : List Char) (args : List FmtArg) :
    ∀ m r, formatAux l args = some (m, r) → '\n' ∉ l →
      (∀ a ∈ args, '\n' ∉ a.render) → '\n' ∉ m := by
  induction l, args using formatAux.induct with
  | case1 args =>
    intro m r h hl ha
    rw [formatAux.eq_1] at h
    obtain ⟨rfl, rfl⟩ : ([] : List Char) = m ∧ args = r := by simpa using h
    simp
  | case2 args =>
    intro m r h hl ha
    rw [formatAux_pct_nil] at h
    exact absurd h (by simp)
  | case3 args rest2 ih =>
    intro m r h hl ha
    rw [formatAux_pct_pct] at h
    cases hx : formatAux rest2 args with
    | none => rw [hx] at h; exact absurd h (by simp)
    | some p =>
      rw [hx] at h
      obtain ⟨rfl, rfl⟩ : '%' :: p.1 = m ∧ p.2 = r := by simpa [Prod.ext_iff] using h
      have hrest : '\n' ∉ rest2 := fun hm => hl (by simp [hm])
      have hrec := ih p.1 p.2 hx hrest ha
      intro hmem
      rcases List.mem_cons.mp hmem with he | hmem2
      · exact absurd he (by decide)
      · exact hrec hmem2
  | case4 rest2 i args2 hd ih =>
    intro m r h hl ha
    rw [formatAux_pct_d_int] at h
    cases hx : formatAux rest2 args2 with
    | none => rw [hx] at h; exact absurd h (by simp)
    | some p =>
      rw [hx] at h
      obtain ⟨rfl, rfl⟩ : (toString i).toList ++ p.1 = m ∧ p.2 = r := by
        simpa [Prod.ext_iff] using h
      have hrest : '\n' ∉ rest2 := fun hm => hl (by simp [hm])
      have hi : '\n' ∉ (toString i).toList := by
        have := ha (FmtArg.int i) (List.mem_cons_self _ _)
        simpa [FmtArg.render] using this
      have hrec := ih p.1 p.2 hx hrest (fun a hm => ha a (List.mem_cons_of_mem _ hm))
      intro hmem
      rcases List.mem_append.mp hmem with hmem1 | hmem2
      · exact hi hmem1
      · exact hrec hmem2
  | case5 args rest2 hno hd =>
    intro m r h hl ha
    rw [formatAux_pct_d_not_int _ args hno] at h
    exact absurd h (by simp)
  | case6 rest2 s args2 hs hd ih =>
    intro m r h hl ha
    rw [formatAux_pct_s_str] at h
    cases hx : formatAux rest2 args2 with
    | none => rw [hx] at h; exact absurd h (by simp)
    | some p =>
      rw [hx] at h
      obtain ⟨rfl, rfl⟩ : s.toList ++ p.1 = m ∧ p.2 = r := by simpa [Prod.ext_iff] using h
      have hrest : '\n' ∉ rest2 := fun hm => hl (by simp [hm])
      have hs2 : '\n' ∉ s.toList := by
        have := ha (FmtArg.str s) (List.mem_cons_self _ _)
        simpa [FmtArg.render] using this
      have hrec := ih p.1 p.2 hx hrest (fun a hm => ha a (List.mem_cons_of_mem _ hm))
      intro hmem
      rcases List.mem_append.mp hmem with hmem1 | hmem2
      · exact hs2 hmem1
      · exact hrec hmem2
  | case7 args rest2 hno hs hd =>
    intro m r h hl ha
    rw [formatAux_pct_s_not_str _ args hno] at h
    exact absurd h (by simp)
  | case8 args d rest2 h1 h2 h3 =>
    intro m r h hl ha
    rw [formatAux_pct_other d _ args h1 h2 h3] at h
    exact absurd h (by simp)
  | case9 c rest args hc ih =>
    intro m r h hl ha
    rw [formatAux_cons_ne c rest args hc] at h
    cases hx : formatAux rest args with
    | none => rw [hx] at h; exact absurd h (by simp)
    | some p =>
      rw [hx] at h
      obtain ⟨rfl, rfl⟩ : c :: p.1 = m ∧ p.2 = r := by simpa [Prod.ext_iff] using h
      have hcn : c ≠ '\n' := fun e => hl (by simp [e])
      have hrest : '\n' ∉ rest := fun hm => hl (by simp [hm])
      have hrec := ih p.1 p.2 hx hrest ha
      intro hmem
      rcases List.mem_cons.mp hmem with he | hmem2
      · exact hcn he.symm
      · exact hrec hmem2


/-- The tag of every level is free of `%` and of line breaks. -/
theorem tagChars_clean (lvl : Level) :
    '%' ∉ tagChars lvl.name ∧ '\n' ∉ tagChars lvl.name := by
  cases lvl <;> exact ⟨by decide, by decide⟩

/-- Every level's method is `_log` on that level's stream and tag: the call
renders `emitted` and appends it to the destination stream. -/
theorem call_eq_emitted (self : DefaultLogger) (lvl : Level) (w : World)
    (format : String) (args : List FmtArg) :
    DefaultLogger.call self lvl w format args
      = (emitted lvl format args).map (fun m => (writeStream w lvl.stream m, ())) := by
  cases lvl <;>
    simp [DefaultLogger.call, DefaultLogger.debug, DefaultLogger.info, DefaultLogger.warn,
      DefaultLogger.error, DefaultLogger.fatal, DefaultLogger._log, emitted, tagChars,
      Level.name, Level.stream, Option.map_map, List.append_assoc, Function.comp_def]

/-- When the caller's template formats to `m`, the full emitted text is the
tag, then `m`, then the line terminator. -/
theorem emitted_of_sprintf (lvl : Level) (format : String) (args : List FmtArg)
    (m : List Char) (h : sprintf format args = some m) :
    emitted lvl format args = some (tagChars lvl.name ++ m ++ ['\n']) := by
  obtain ⟨p, hp, hm⟩ : ∃ p, formatAux format.toList args = some p ∧ p.1 = m := by
    rcases hx : formatAux format.toList args with _ | p
    · rw [sprintf, hx] at h; exact absurd h (by simp)
    · rw [sprintf, hx] at h
      exact ⟨p, rfl, by simpa using h⟩
  rw [emitted, List.append_assoc, formatAux_append_pfree _ _ _ (tagChars_clean lvl).1,
    formatAux_append _ _ ['\n'] p.1 p.2 (by rw [hp]),
    formatAux_cons_ne '\n' [] p.2 (by decide), formatAux.eq_1]
  simp [hm, List.append_assoc]


/-- Each throttled method forwards to the plain method of its level,
discarding the period. -/
theorem callThrottle_eq_call (self : DefaultLogger) (lvl : Level) (period : Float)
    (w : World) (format : String) (args : List FmtArg) :
    DefaultLogger.callThrottle self lvl period w format args
      = DefaultLogger.call self lvl w format args := by
  cases lvl <;> rfl

/-- Each interface method forwards to the derived method of its level. -/
theorem interface_call_eq (derived : DefaultLogger) (lvl : Level) (w : World)
    (format : String) (args : List FmtArg) :
    LoggerInterface.call derived lvl w format args
      = DefaultLogger.call derived lvl w format args := by
  cases lvl <;> rfl

/-- Each throttled interface method forwards to the derived throttled
method of its level. -/
theorem interface_callThrottle_eq (derived : DefaultLogger) (lvl : Level) (period : Float)
    (w : World) (format : String) (args : List FmtArg) :
    LoggerInterface.callThrottle derived lvl period w format args
      = DefaultLogger.callThrottle derived lvl period w format args := by
  cases lvl <;> rfl

/-- Claim C1: for every severity level, format template and argument list on
which formatting is defined, the call emits exactly one message of the form
`[mavrosflight][<LEVEL>]: <formatted message>` followed by a line terminator,
appended to the level's destination stream. -/
theorem c1_tagged_message (self : DefaultLogger) (lvl : Level) (w : World)
    (format : String) (args : List FmtArg) (m : List Char)
    (h : sprintf format args = some m) :
    DefaultLogger.call self lvl w format args
      = some (writeStream w lvl.stream (tagChars lvl.name ++ m ++ ['\n']), ()) := by
  rw [call_eq_emitted, emitted_of_sprintf lvl format args m h]
  rfl

theorem c1_tagged_message_witness :
    sprintf "x=%d" [FmtArg.int 5] = some "x=5".toList ∧
    DefaultLogger.call ⟨⟩ Level.info ⟨[], [], false, false⟩ "x=%d" [FmtArg.int 5]
      = some (writeStream ⟨[], [], false, false⟩ (Level.stream Level.info)
          (tagChars (Level.name Level.info) ++ "x=5".toList ++ ['\n']), ()) :=
  ⟨by decide, c1_tagged_message ⟨⟩ Level.info ⟨[], [], false, false⟩ "x=%d" [FmtArg.int 5]
      "x=5".toList (by decide)⟩

/-- Claim C3: every throttled method forwards to the non-throttled method of
the same level, discarding the period, so a throttled call behaves identically
and two successive throttled calls behave as two successive plain calls. -/
theorem c3_throttle_equals_plain (self : DefaultLogger) (lvl : Level) (period : Float)
    (w : World) (format : String) (args : List FmtArg) :
    DefaultLogger.callThrottle self lvl period w format args
      = DefaultLogger.call self lvl w format args ∧
    (DefaultLogger.callThrottle self lvl period w format args).bind
        (fun r => DefaultLogger.callThrottle self lvl period r.1 format args)
      = (DefaultLogger.call self lvl w format args).bind
        (fun r => DefaultLogger.call self lvl r.1 format args) := by
  constructor <;> cases lvl <;> rfl

/-- Claim C4: each `LoggerInterface` method instantiated at `DefaultLogger`
produces exactly the result of the matching `DefaultLogger` method. -/
theorem c4_interface_transparent (derived : DefaultLogger) (lvl : Level) (period : Float)
    (w : World) (format : String) (args : List FmtArg) :
    LoggerInterface.call derived lvl w format args
      = DefaultLogger.call derived lvl w format args ∧
    LoggerInterface.callThrottle derived lvl period w format args
      = DefaultLogger.callThrottle derived lvl period w format args := by
  constructor <;> cases lvl <;> rfl

/-- Claim C5: a defined log call returns the C++ `void` value and nothing
else to the caller, for every world, including worlds whose destination
streams are closed: a failed stream write is absorbed silently. -/
theorem c5_no_error_channel (self : DefaultLogger) (lvl : Level) (w : World)
    (format : String) (args : List FmtArg)
    (h : (sprintf format args).isSome) :
    ∃ w', DefaultLogger.call self lvl w format args = some (w', ()) ∧
      LoggerInterface.call self lvl w format args = some (w', ()) ∧
      ∀ period : Float,
        DefaultLogger.callThrottle self lvl period w format args = some (w', ()) ∧
        LoggerInterface.callThrottle self lvl period w format args = some (w', ()) := by
  obtain ⟨m, hm⟩ := Option.isSome_iff_exists.mp h
  have hcall : DefaultLogger.call self lvl w format args
      = some (writeStream w lvl.stream (tagChars lvl.name ++ m ++ ['\n']), ()) := by
    rw [call_eq_emitted, emitted_of_sprintf lvl format args m hm]
    rfl
  refine ⟨_, hcall, ?_, fun period => ⟨?_, ?_⟩⟩
  · rw [interface_call_eq, hcall]
  · rw [callThrottle_eq_call, hcall]
  · rw [interface_callThrottle_eq, callThrottle_eq_call, hcall]

theorem c5_no_error_channel_witness :
    (sprintf "boom" []).isSome ∧
    ∃ w', DefaultLogger.call ⟨⟩ Level.fatal ⟨[], [], true, true⟩ "boom" [] = some (w', ()) ∧
      LoggerInterface.call ⟨⟩ Level.fatal ⟨[], [], true, true⟩ "boom" [] = some (w', ()) ∧
      ∀ period : Float,
        DefaultLogger.callThrottle ⟨⟩ Level.fatal period ⟨[], [], true, true⟩ "boom" []
          = some (w', ()) ∧
        LoggerInterface.callThrottle ⟨⟩ Level.fatal period ⟨[], [], true, true⟩ "boom" []
          = some (w', ()) :=
  ⟨by decide, c5_no_error_channel ⟨⟩ Level.fatal ⟨[], [], true, true⟩ "boom" [] (by decide)⟩

/-- Claim C8: with zero variadic arguments and a template with no conversion
specification, the template is emitted verbatim between the tag and the line
terminator. -/
theorem c8_no_placeholder_verbatim (self : DefaultLogger) (lvl : Level) (w : World)
    (format : String) (h : '%' ∉ format.toList) :
    DefaultLogger.call self lvl w format []
      = some (writeStream w lvl.stream (tagChars lvl.name ++ format.toList ++ ['\n']), ()) := by
  have hs : sprintf format [] = some format.toList := by
    rw [sprintf, formatAux_pfree format.toList [] h]
    rfl
  rw [call_eq_emitted, emitted_of_sprintf lvl format [] format.toList hs]
  rfl

theorem c8_no_placeholder_verbatim_witness :
    ('%' ∉ "ready".toList) ∧
    DefaultLogger.call ⟨⟩ Level.debug ⟨[], [], false, false⟩ "ready" []
      = some (writeStream ⟨[], [], false, false⟩ (Level.stream Level.debug)
          (tagChars (Level.name Level.debug) ++ "ready".toList ++ ['\n']), ()) :=
  ⟨by decide, c8_no_placeholder_verbatim ⟨⟩ Level.debug ⟨[], [], false, false⟩ "ready" (by decide)⟩

/-- Claim C9: `DefaultLogger` is stateless: which logger value is used never
matters, and the result is the fixed text `emitted lvl format args` appended
to the current stream state, so identical inputs yield identical output
regardless of prior calls. -/
theorem c9_stateless (self1 self2 : DefaultLogger) (lvl : Level) (w : World)
    (format : String) (args : List FmtArg) :
    DefaultLogger.call self1 lvl w format args = DefaultLogger.call self2 lvl w format args ∧
    DefaultLogger.call self1 lvl w format args
      = (emitted lvl format args).map (fun m => (writeStream w lvl.stream m, ())) :=
  ⟨by cases self1; cases self2; rfl, call_eq_emitted self1 lvl w format args⟩

/-- Claim C10: a template without conversion specifications is emitted as tag,
template and one terminator no matter how many surplus arguments are passed;
the surplus arguments are ignored. -/
theorem c10_surplus_arguments_ignored (self : DefaultLogger) (lvl : Level) (w : World)
    (format : String) (args : List FmtArg) (h : '%' ∉ format.toList) :
    DefaultLogger.call self lvl w format args
      = some (writeStream w lvl.stream (tagChars lvl.name ++ format.toList ++ ['\n']), ()) ∧
    DefaultLogger.call self lvl w format args = DefaultLogger.call self lvl w format [] := by
  have hs : ∀ a : List FmtArg, sprintf format a = some format.toList := fun a => by
    rw [sprintf, formatAux_pfree format.toList a h]
    rfl
  constructor
  · rw [call_eq_emitted, emitted_of_sprintf lvl format args format.toList (hs args)]
    rfl
  · rw [call_eq_emitted, call_eq_emitted,
      emitted_of_sprintf lvl format args format.toList (hs args),
      emitted_of_sprintf lvl format [] format.toList (hs [])]

theorem c10_surplus_arguments_ignored_witness :
    ('%' ∉ "ready".toList) ∧
    (DefaultLogger.call ⟨⟩ Level.warn ⟨[], [], false, false⟩ "ready" [FmtArg.int 1, FmtArg.str "x"]
      = some (writeStream ⟨[], [], false, false⟩ (Level.stream Level.warn)
          (tagChars (Level.name Level.warn) ++ "ready".toList ++ ['\n']), ()) ∧
    DefaultLogger.call ⟨⟩ Level.warn ⟨[], [], false, false⟩ "ready" [FmtArg.int 1, FmtArg.str "x"]
      = DefaultLogger.call ⟨⟩ Level.warn ⟨[], [], false, false⟩ "ready" []) :=
  ⟨by decide, c10_surplus_arguments_ignored ⟨⟩ Level.warn ⟨[], [], false, false⟩ "ready"
      [FmtArg.int 1, FmtArg.str "x"] (by decide)⟩


/-- Claim C2: the destination is selected solely by severity: debug and info
touch only the standard output buffer, warn, error and fatal touch only the
standard error buffer; the other stream is never written. -/
theorem c2_stream_by_level (self : DefaultLogger) (lvl : Level) (w : World)
    (format : String) (args : List FmtArg) (w' : World)
    (h : DefaultLogger.call self lvl w format args = some (w', ())) :
    ((lvl = Level.debug ∨ lvl = Level.info) →
      w'.errBuf = w.errBuf ∧ w'.errClosed = w.errClosed ∧
      (w.outClosed = true → w'.outBuf = w.outBuf) ∧
      (w.outClosed = false →
        ∃ m, emitted lvl format args = some m ∧ w'.outBuf = w.outBuf ++ m)) ∧
    ((lvl = Level.warn ∨ lvl = Level.error ∨ lvl = Level.fatal) →
      w'.outBuf = w.outBuf ∧ w'.outClosed = w.outClosed ∧
      (w.errClosed = true → w'.errBuf = w.errBuf) ∧
      (w.errClosed = false →
        ∃ m, emitted lvl format args = some m ∧ w'.errBuf = w.errBuf ++ m)) := by
  rw [call_eq_emitted] at h
  cases he : emitted lvl format args with
  | none => rw [he] at h; exact absurd h (by simp)
  | some m =>
    rw [he] at h
    have hw : writeStream w lvl.stream m = w' := by
      have := Option.some.inj h
      exact congrArg Prod.fst this
    subst hw
    cases lvl <;> cases hoc : w.outClosed <;> cases hec : w.errClosed <;>
      simp [Level.stream, writeStream, hoc, hec, he]

theorem c2_stream_by_level_witness :
    DefaultLogger.call ⟨⟩ Level.warn ⟨[], [], false, false⟩ "go" []
      = some (⟨[], "[mavrosflight][WARN]: go\n".toList, false, false⟩, ()) ∧
    (((Level.warn = Level.debug ∨ Level.warn = Level.info) →
      ("[mavrosflight][WARN]: go\n".toList : List Char) = [] ∧ false = false ∧
      (false = true → ([] : List Char) = []) ∧
      (false = false →
        ∃ m, emitted Level.warn "go" [] = some m ∧ ([] : List Char) = [] ++ m)) ∧
    ((Level.warn = Level.warn ∨ Level.warn = Level.error ∨ Level.warn = Level.fatal) →
      ([] : List Char) = [] ∧ false = false ∧
      (false = true → ("[mavrosflight][WARN]: go\n".toList : List Char) = []) ∧
      (false = false →
        ∃ m, emitted Level.warn "go" [] = some m ∧
          ("[mavrosflight][WARN]: go\n".toList : List Char) = [] ++ m))) :=
  ⟨by decide, c2_stream_by_level ⟨⟩ Level.warn ⟨[], [], false, false⟩ "go" []
      ⟨[], "[mavrosflight][WARN]: go\n".toList, false, false⟩ (by decide)⟩

/-- Claim C6: when the template and the rendered arguments contain no line
break, the emitted text ends in exactly one line break and contains no other
line break, and the call writes exactly that text. -/
theorem c6_single_terminator (self : DefaultLogger) (lvl : Level) (w : World)
    (format : String) (args : List FmtArg) (out : List Char)
    (h : emitted lvl format args = some out)
    (hfmt : '\n' ∉ format.toList)
    (hargs : ∀ a ∈ args, '\n' ∉ a.render) :
    (∃ p, out = p ++ ['\n'] ∧ '\n' ∉ p) ∧
    DefaultLogger.call self lvl w format args
      = some (writeStream w lvl.stream out, ()) := by
  refine ⟨?_, by rw [call_eq_emitted, h]; rfl⟩
  rw [emitted, List.append_assoc, formatAux_append_pfree _ _ _ (tagChars_clean lvl).1] at h
  cases hx : formatAux (format.toList ++ ['\n']) args with
  | none => rw [hx] at h; exact absurd h (by simp)
  | some q =>
    rw [hx] at h
    have hout : tagChars lvl.name ++ q.1 = out := by simpa using h
    obtain ⟨m0, h1, h2⟩ := formatAux_snoc_newline format.toList args q.1 q.2 (by rw [hx])
    have hnl : '\n' ∉ m0 := formatAux_no_newline format.toList args m0 q.2 h1 hfmt hargs
    refine ⟨tagChars lvl.name ++ m0, ?_, ?_⟩
    · rw [← hout, h2, List.append_assoc]
    · intro hmem
      rcases List.mem_append.mp hmem with h3 | h3
      · exact (tagChars_clean lvl).2 h3
      · exact hnl h3

theorem c6_single_terminator_witness :
    emitted Level.info "x=%d" [FmtArg.int 5] = some "[mavrosflight][INFO]: x=5\n".toList ∧
    ('\n' ∉ "x=%d".toList) ∧
    (∀ a ∈ [FmtArg.int 5], '\n' ∉ a.render) ∧
    ((∃ p, "[mavrosflight][INFO]: x=5\n".toList = p ++ ['\n'] ∧ '\n' ∉ p) ∧
      DefaultLogger.call ⟨⟩ Level.info ⟨[], [], false, false⟩ "x=%d" [FmtArg.int 5]
        = some (writeStream ⟨[], [], false, false⟩ (Level.stream Level.info)
            "[mavrosflight][INFO]: x=5\n".toList, ())) :=
  ⟨by decide, by decide, by decide,
    c6_single_terminator ⟨⟩ Level.info ⟨[], [], false, false⟩ "x=%d" [FmtArg.int 5]
      "[mavrosflight][INFO]: x=5\n".toList (by decide) (by decide) (by decide)⟩

/-- Claim C7: with the template `"%s=%d"` and arguments `s` then `i`, the
arguments are substituted in positional order: the body is `s`, then `=`,
then the decimal rendering of `i`. -/
theorem c7_positional_substitution (self : DefaultLogger) (w : World) (s : String) (i : Int) :
    DefaultLogger.info self w "%s=%d" [FmtArg.str s, FmtArg.int i]
      = some (writeStream w FileStream.stdout
          (tagChars "INFO" ++ s.toList ++ ['='] ++ (toString i).toList ++ ['\n']), ()) := by
  have hs : sprintf "%s=%d" [FmtArg.str s, FmtArg.int i]
      = some (s.toList ++ '=' :: (toString i).toList) := by
    have hl : ("%s=%d".toList) = '%' :: 's' :: '=' :: '%' :: 'd' :: [] := rfl
    rw [sprintf, hl, formatAux_pct_s_str, formatAux_cons_ne '=' _ _ (by decide),
      formatAux_pct_d_int, formatAux.eq_1]
    simp
  have hcall : DefaultLogger.info self w "%s=%d" [FmtArg.str s, FmtArg.int i]
      = DefaultLogger.call self Level.info w "%s=%d" [FmtArg.str s, FmtArg.int i] := rfl
  rw [hcall, call_eq_emitted,
    emitted_of_sprintf Level.info "%s=%d" [FmtArg.str s, FmtArg.int i] _ hs]
  simp [Level.stream, Level.name, List.append_assoc]

end Mavrosflight
